import Mathlib

/-!
Verification of the GrowmindAI nutrient dosing engine.

This file gives a shallow embedding, in Lean 4, of the core algorithms of the
repository and proves (or refutes) the specified properties about them.
Python floats are modelled as exact rationals (ℚ); dictionaries keyed by
strings are modelled as association lists or total functions with default 0,
matching Python's dict.get(key, 0.0) access pattern.

Embedded source locations:
  backend/nutrient_engine.py        _round2, _normalize_phase, _resolve_stage,
                                    _calculate_liquid_mix, _consume_mix,
                                    _normalize_state
  backend/services/nutrient_service.py  _normalize_recipe, get_stage_class,
                                    get_week_number, r2, calculate_dose
                                    (observation delta rules + clamping)
  backend/app/inventory_db.py       apply_consumption, set_stock
  backend/app/plan_routes.py        BASE_PLAN_TEMPLATES (coco plan)
-/

namespace Growmind

/-! ## Rounding: `_round2` / `r2`

Python: `float(Decimal(str(value)).quantize(Decimal("0.01"), rounding=ROUND_HALF_UP))`.
Decimal ROUND_HALF_UP rounds to the nearest hundredth with ties away from zero. -/

/-- Round a rational to the nearest integer, ties away from zero
(Decimal ROUND_HALF_UP at exponent 0). -/
def roundHalfUp (q : ℚ) : ℤ :=
  if 0 ≤ q then ⌊q + 1/2⌋ else -⌊-q + 1/2⌋

/-- Model of `_round2` in backend/nutrient_engine.py (= `r2` of services/nutrient_service.py):
round to 2 decimal places, half up. -/
def round2 (v : ℚ) : ℚ :=
  (roundHalfUp (v * 100) : ℚ) / 100

/-! ## Recipe normalization: `_normalize_recipe` (services/nutrient_service.py)

```python
def _normalize_recipe(raw, scale, target=TARGET_MIX_TOTAL):
    normalized = {}
    total = 0.0
    for salt, grams in raw.items():
        amount = float(grams or 0.0) * scale
        if math.isfinite(amount) and amount > 0:
            normalized[salt] = amount
            total += amount
        else:
            normalized[salt] = 0.0
    if total <= 0.0:
        return {salt: 0.0 for salt in raw}
    adjust = target / total
    return {salt: grams * adjust for salt, grams in normalized.items()}
```
The recipe dict is modelled as an association list; amounts are rationals, so
`math.isfinite` always holds and the kept condition is `amount > 0`. -/

def TARGET_MIX_TOTAL : ℚ := 1000

/-- The intermediate `normalized` dict: every raw amount scaled, with
non-positive (in Python: non-finite or non-positive) amounts floored to 0. -/
def clampedAmounts (raw : List (String × ℚ)) (scale : ℚ) : List (String × ℚ) :=
  raw.map fun p => (p.1, if 0 < p.2 * scale then p.2 * scale else 0)

/-- The running `total`: sum of the kept (positive) scaled amounts. -/
def recipeTotal (raw : List (String × ℚ)) (scale : ℚ) : ℚ :=
  ((clampedAmounts raw scale).map Prod.snd).sum

/-- Model of `_normalize_recipe raw scale target`. -/
def normalizeRecipe (raw : List (String × ℚ)) (scale target : ℚ) : List (String × ℚ) :=
  if recipeTotal raw scale ≤ 0 then raw.map fun p => (p.1, 0)
  else (clampedAmounts raw scale).map fun p => (p.1, p.2 * (target / recipeTotal raw scale))

theorem clampedAmounts_scale (raw : List (String × ℚ)) {scale : ℚ} (hs : 0 < scale) :
    clampedAmounts raw scale = (clampedAmounts raw 1).map fun p => (p.1, p.2 * scale) := by
  simp only [clampedAmounts, List.map_map]
  refine List.map_congr_left fun p _ => ?_
  by_cases h : 0 < p.2
  · have : 0 < p.2 * scale := mul_pos h hs
    simp [Function.comp, h, this, mul_one]
  · have h2 : ¬ 0 < p.2 * scale := by
      intro hc
      exact h ((mul_pos_iff_of_pos_right hs).mp hc)
    simp [Function.comp, h, h2]

theorem recipeTotal_scale (raw : List (String × ℚ)) {scale : ℚ} (hs : 0 < scale) :
    recipeTotal raw scale = scale * recipeTotal raw 1 := by
  rw [recipeTotal, clampedAmounts_scale raw hs]
  rw [List.map_map]
  have h1 : (Prod.snd ∘ fun p : String × ℚ => (p.1, p.2 * scale))
      = fun p : String × ℚ => p.2 * scale := rfl
  rw [h1, List.sum_map_mul_right, recipeTotal, mul_comm]

theorem normalizeRecipe_sum (raw : List (String × ℚ)) (scale : ℚ)
    (hpos : 0 < recipeTotal raw scale) :
    ((normalizeRecipe raw scale TARGET_MIX_TOTAL).map Prod.snd).sum = TARGET_MIX_TOTAL := by
  rw [normalizeRecipe, if_neg (not_le.mpr hpos), List.map_map]
  have h1 : (Prod.snd ∘ fun p : String × ℚ =>
      (p.1, p.2 * (TARGET_MIX_TOTAL / recipeTotal raw scale)))
      = fun p : String × ℚ => p.2 * (TARGET_MIX_TOTAL / recipeTotal raw scale) := rfl
  rw [h1, List.sum_map_mul_right, ← recipeTotal]
  field_simp

/-- Claim C2: `_normalize_recipe` scales every raw amount, floors non-positive
(in ℚ, the image of non-finite/negative floats) amounts to 0, returns all-zero
amounts when the clamped sum is non-positive, otherwise rescales by
`target/sum` so the output sums exactly to the fixed target 1000; and the
result is invariant under every positive scale factor. -/
theorem recipe_normalization_scale_invariant
    (raw : List (String × ℚ)) (scale : ℚ) (hs : 0 < scale) :
    (0 < recipeTotal raw scale →
      ((normalizeRecipe raw scale TARGET_MIX_TOTAL).map Prod.snd).sum = 1000) ∧
    (recipeTotal raw scale ≤ 0 →
      ∀ p ∈ normalizeRecipe raw scale TARGET_MIX_TOTAL, p.2 = 0) ∧
    normalizeRecipe raw scale TARGET_MIX_TOTAL = normalizeRecipe raw 1 TARGET_MIX_TOTAL := by
  refine ⟨fun hpos => normalizeRecipe_sum raw scale hpos, fun hnp p hp => ?_, ?_⟩
  · rw [normalizeRecipe, if_pos hnp] at hp
    obtain ⟨q, _, rfl⟩ := List.mem_map.mp hp
    rfl
  · have htot : recipeTotal raw scale = scale * recipeTotal raw 1 := recipeTotal_scale raw hs
    by_cases h1 : recipeTotal raw 1 ≤ 0
    · have hsc : recipeTotal raw scale ≤ 0 := by
        rw [htot]
        exact mul_nonpos_of_nonneg_of_nonpos hs.le h1
      rw [normalizeRecipe, normalizeRecipe, if_pos hsc, if_pos h1]
    · push_neg at h1
      have hsc : ¬ recipeTotal raw scale ≤ 0 := by
        rw [htot]
        exact not_le.mpr (mul_pos hs h1)
      rw [normalizeRecipe, normalizeRecipe, if_neg hsc, if_neg (not_le.mpr h1)]
      rw [clampedAmounts_scale raw hs, List.map_map]
      refine List.map_congr_left fun p _ => ?_
      simp only [Function.comp]
      have hne : recipeTotal raw 1 ≠ 0 := ne_of_gt h1
      rw [htot]
      field_simp
      ring

/-- Witness for C2 at a concrete recipe and scale 3:
raw = [(MgSO4, 240), (MKP, -5)], scale = 3. -/
theorem recipe_normalization_scale_invariant_witness :
    (0:ℚ) < 3 ∧
    ((0 < recipeTotal [("MgSO4", 240), ("MKP", -5)] 3 →
      ((normalizeRecipe [("MgSO4", 240), ("MKP", -5)] 3 TARGET_MIX_TOTAL).map Prod.snd).sum
        = 1000) ∧
    (recipeTotal [("MgSO4", 240), ("MKP", -5)] 3 ≤ 0 →
      ∀ p ∈ normalizeRecipe [("MgSO4", 240), ("MKP", -5)] 3 TARGET_MIX_TOTAL, p.2 = 0) ∧
    normalizeRecipe [("MgSO4", 240), ("MKP", -5)] 3 TARGET_MIX_TOTAL
      = normalizeRecipe [("MgSO4", 240), ("MKP", -5)] 1 TARGET_MIX_TOTAL) :=
  ⟨by norm_num, recipe_normalization_scale_invariant [("MgSO4", 240), ("MKP", -5)] 3
    (by norm_num)⟩

/-! ## String machinery

Python strings are modelled as `List Char`. `str.strip()` is `trimChars`,
`str.lower()` maps `Char.toLower` (faithful on ASCII, which covers every
string the engine constructs), `WEEK_REGEX = ^W(\d+)$` (IGNORECASE) is
`matchWeek`, and the `in` substring test is `containsSub`. -/

def isSpaceChar (c : Char) : Bool := c.isWhitespace

/-- Python `str.strip()`: drop whitespace from both ends. -/
def trimChars (cs : List Char) : List Char :=
  List.rdropWhile isSpaceChar (List.dropWhile isSpaceChar cs)

def digitVal (c : Char) : Nat := c.toNat - 48

/-- Value of a run of decimal digits (what `int(match.group(1))` computes). -/
def digitsVal (cs : List Char) : Nat :=
  cs.foldl (fun acc c => acc * 10 + digitVal c) 0

/-- Model of `WEEK_REGEX.match(s)`: `^W(\d+)$` with IGNORECASE, returning the numeric
value of the digit group. -/
def matchWeek (cs : List Char) : Option Nat :=
  match cs with
  | [] => none
  | c :: rest =>
      if (c = 'W' ∨ c = 'w') ∧ rest ≠ [] ∧ rest.all Char.isDigit then
        some (digitsVal rest)
      else none

/-- Canonical decimal digit list of a natural number, with explicit fuel so
that it reduces by kernel computation. -/
def natDigitsF : Nat → Nat → List Char
  | 0, _ => []
  | fuel + 1, n =>
      if n < 10 then [Char.ofNat (48 + n)]
      else natDigitsF fuel (n / 10) ++ [Char.ofNat (48 + n % 10)]

/-- Canonical decimal digit list of a natural number
(Python `str(int)`, no leading zeros). -/
def natDigits (n : Nat) : List Char := natDigitsF (n + 1) n

/-- Python `pat in s` (substring containment). -/
def containsSub (pat : List Char) : List Char → Bool
  | [] => pat.isEmpty
  | c :: rest => pat.isPrefixOf (c :: rest) || containsSub pat rest

/-! ## Phase-key canonicalization: `NutrientCalculator._normalize_phase`

```python
def _normalize_phase(self, phase):
    raw = str(phase or "").strip()
    if not raw:
        raise ValueError("current_week is required")
    match = WEEK_REGEX.match(raw)
    if match:
        return f"W{int(match.group(1))}"
    lowered = raw.lower()
    if "veg" in lowered:
        if "early" in lowered:
            return "Early Veg"
        if "mid" in lowered or "middle" in lowered:
            return "Mid Veg"
        if "late" in lowered:
            return "Late Veg"
    return raw
```
The `ValueError` on a blank input is modelled as `none`. -/

def normPhase (phase : List Char) : Option (List Char) :=
  let raw := trimChars phase
  if raw = [] then none
  else
    match matchWeek raw with
    | some n => some ('W' :: natDigits n)
    | none =>
        let lowered := raw.map Char.toLower
        if containsSub "veg".data lowered then
          if containsSub "early".data lowered then some "Early Veg".data
          else if containsSub "mid".data lowered ∨ containsSub "middle".data lowered then
            some "Mid Veg".data
          else if containsSub "late".data lowered then some "Late Veg".data
          else some raw
        else some raw

theorem toNat_digitChar {d : Nat} (hd : d < 10) : (Char.ofNat (48 + d)).toNat = 48 + d := by
  interval_cases d <;> rfl

theorem isDigit_digitChar {d : Nat} (hd : d < 10) : (Char.ofNat (48 + d)).isDigit = true := by
  interval_cases d <;> rfl

theorem digitsVal_append (cs : List Char) (c : Char) :
    digitsVal (cs ++ [c]) = 10 * digitsVal cs + digitVal c := by
  simp [digitsVal, List.foldl_append, Nat.mul_comm]

theorem not_space_digitChar {d : Nat} (hd : d < 10) :
    isSpaceChar (Char.ofNat (48 + d)) = false := by
  interval_cases d <;> rfl

theorem natDigitsF_spec : ∀ (fuel n : Nat), n < fuel →
    digitsVal (natDigitsF fuel n) = n ∧ natDigitsF fuel n ≠ []
      ∧ ∀ c ∈ natDigitsF fuel n, c.isDigit = true ∧ isSpaceChar c = false := by
  intro fuel
  induction fuel with
  | zero => omega
  | succ f ih =>
    intro n hn
    rw [natDigitsF]
    by_cases h : n < 10
    · rw [if_pos h]
      refine ⟨?_, by simp, ?_⟩
      · simp only [digitsVal, List.foldl_cons, List.foldl_nil, digitVal]
        rw [toNat_digitChar h]
        omega
      · intro c hc
        simp only [List.mem_singleton] at hc
        subst hc
        exact ⟨isDigit_digitChar h, not_space_digitChar h⟩
    · rw [if_neg h]
      have hdiv : n / 10 < n := Nat.div_lt_self (by omega) (by omega)
      obtain ⟨ihv, ihne, ihall⟩ := ih (n / 10) (by omega)
      refine ⟨?_, by simp, ?_⟩
      · rw [digitsVal_append, ihv, digitVal, toNat_digitChar (Nat.mod_lt n (by omega))]
        omega
      · intro c hc
        rcases List.mem_append.mp hc with h1 | h2
        · exact ihall c h1
        · simp only [List.mem_singleton] at h2
          subst h2
          exact ⟨isDigit_digitChar (Nat.mod_lt n (by omega)),
            not_space_digitChar (Nat.mod_lt n (by omega))⟩

theorem digitsVal_natDigits (n : Nat) : digitsVal (natDigits n) = n :=
  (natDigitsF_spec (n + 1) n (by omega)).1

theorem natDigits_ne_nil (n : Nat) : natDigits n ≠ [] :=
  (natDigitsF_spec (n + 1) n (by omega)).2.1

theorem natDigits_all_digit (n : Nat) : (natDigits n).all Char.isDigit = true :=
  List.all_eq_true.mpr fun c hc => ((natDigitsF_spec (n + 1) n (by omega)).2.2 c hc).1

theorem natDigits_no_space (n : Nat) : ∀ c ∈ natDigits n, isSpaceChar c = false :=
  fun c hc => ((natDigitsF_spec (n + 1) n (by omega)).2.2 c hc).2

theorem trimChars_trimChars (l : List Char) : trimChars (trimChars l) = trimChars l := by
  unfold trimChars
  have hdrop : List.dropWhile isSpaceChar (List.rdropWhile isSpaceChar
      (List.dropWhile isSpaceChar l))
      = List.rdropWhile isSpaceChar (List.dropWhile isSpaceChar l) := by
    obtain ⟨w, hw⟩ := List.rdropWhile_prefix isSpaceChar (List.dropWhile isSpaceChar l)
    rw [List.dropWhile_eq_self_iff]
    intro hl
    have hlen : 0 < (List.dropWhile isSpaceChar l).length := by
      rw [← hw, List.length_append]
      omega
    have h0 : (List.rdropWhile isSpaceChar (List.dropWhile isSpaceChar l)).get ⟨0, hl⟩
        = (List.dropWhile isSpaceChar l).get ⟨0, hlen⟩ := by
      rw [List.get_of_eq hw.symm ⟨0, hlen⟩]
      exact (List.get_append 0 hl).symm
    rw [h0]
    exact List.dropWhile_get_zero_not isSpaceChar l hlen
  rw [hdrop, List.rdropWhile_idempotent]

theorem trimChars_eq_self {l : List Char} (h : ∀ c ∈ l, isSpaceChar c = false) :
    trimChars l = l := by
  unfold trimChars
  have h1 : List.dropWhile isSpaceChar l = l := by
    rw [List.dropWhile_eq_self_iff]
    intro hl hc
    rw [h _ (l.get_mem _ _)] at hc
    exact Bool.false_ne_true hc
  rw [h1, List.rdropWhile_eq_self_iff]
  intro hl hc
  rw [h _ (List.getLast_mem hl)] at hc
  exact Bool.false_ne_true hc

theorem matchWeek_canonical (n : Nat) : matchWeek ('W' :: natDigits n) = some n := by
  show (if (('W' : Char) = 'W' ∨ ('W' : Char) = 'w') ∧ natDigits n ≠ []
      ∧ (natDigits n).all Char.isDigit then some (digitsVal (natDigits n)) else none) = some n
  rw [if_pos ⟨Or.inl rfl, natDigits_ne_nil n, natDigits_all_digit n⟩, digitsVal_natDigits]

theorem trim_week_canonical (n : Nat) :
    trimChars ('W' :: natDigits n) = 'W' :: natDigits n := by
  refine trimChars_eq_self fun c hc => ?_
  rcases List.mem_cons.mp hc with rfl | hmem
  · rfl
  · exact natDigits_no_space n c hmem

/-- Claim C8: phase-key canonicalization is idempotent — whenever
`_normalize_phase` is defined on `x` (non-blank after stripping) and returns
`y`, applying it to `y` returns `y` again. -/
theorem normalize_phase_idempotent (x y : List Char) (h : normPhase x = some y) :
    normPhase y = some y := by
  rw [normPhase] at h
  simp only at h
  by_cases hempty : trimChars x = []
  · rw [if_pos hempty] at h
    exact absurd h (by simp)
  rw [if_neg hempty] at h
  cases hweek : matchWeek (trimChars x) with
  | some n =>
    rw [hweek] at h
    have hy : y = 'W' :: natDigits n := (Option.some.injEq _ _ ▸ h.symm)
    subst hy
    rw [normPhase]
    simp only
    rw [trim_week_canonical, if_neg (List.cons_ne_nil _ _), matchWeek_canonical]
  | none =>
    rw [hweek] at h
    by_cases hveg : containsSub "veg".data (List.map Char.toLower (trimChars x)) = true
    · rw [if_pos hveg] at h
      by_cases hearly : containsSub "early".data (List.map Char.toLower (trimChars x)) = true
      · rw [if_pos hearly] at h
        have hy : y = "Early Veg".data := (Option.some.injEq _ _ ▸ h.symm)
        subst hy
        decide
      rw [if_neg hearly] at h
      by_cases hmid : (containsSub "mid".data (List.map Char.toLower (trimChars x)) = true
          ∨ containsSub "middle".data (List.map Char.toLower (trimChars x)) = true)
      · rw [if_pos hmid] at h
        have hy : y = "Mid Veg".data := (Option.some.injEq _ _ ▸ h.symm)
        subst hy
        decide
      rw [if_neg hmid] at h
      by_cases hlate : containsSub "late".data (List.map Char.toLower (trimChars x)) = true
      · rw [if_pos hlate] at h
        have hy : y = "Late Veg".data := (Option.some.injEq _ _ ▸ h.symm)
        subst hy
        decide
      · rw [if_neg hlate] at h
        have hy : y = trimChars x := (Option.some.injEq _ _ ▸ h.symm)
        subst hy
        rw [normPhase]
        simp only
        rw [trimChars_trimChars, if_neg hempty, hweek, if_pos hveg, if_neg hearly,
          if_neg hmid, if_neg hlate]
    · rw [if_neg hveg] at h
      have hy : y = trimChars x := (Option.some.injEq _ _ ▸ h.symm)
      subst hy
      rw [normPhase]
      simp only
      rw [trimChars_trimChars, if_neg hempty, hweek, if_neg hveg]

/-- Witness for C8 at the concrete input " w007 ", which canonicalizes to "W7". -/
theorem normalize_phase_idempotent_witness :
    normPhase " w007 ".data = some "W7".data ∧ normPhase "W7".data = some "W7".data :=
  ⟨by decide, normalize_phase_idempotent " w007 ".data "W7".data (by decide)⟩

/-! ## Engine stage resolution and liquid mix
`NutrientCalculator._resolve_stage` / `_calculate_liquid_mix` (nutrient_engine.py).

```python
def _resolve_stage(self, phase):
    if phase in VEG_PHASES:
        return "veg"
    match = WEEK_REGEX.match(phase)
    if match:
        week = int(match.group(1))
        if week >= 10:
            return "ripen"
        return "flower"
    return "veg"
```
-/

inductive EngineStage | veg | flower | ripen
deriving DecidableEq

/-- Model of `VEG_PHASES = {"Early Veg", "Mid Veg", "Late Veg"}`. -/
def VEG_PHASES : List (List Char) := ["Early Veg".data, "Mid Veg".data, "Late Veg".data]

def resolveStage (phase : List Char) : EngineStage :=
  if phase ∈ VEG_PHASES then .veg
  else
    match matchWeek phase with
    | some week => if 10 ≤ week then .ripen else .flower
    | none => .veg

/-- One row of a plan template as read by `_load_plan_entries` /
`_calculate_liquid_mix` (`entry.get("A") or 0.0` etc.). -/
structure EngineEntry where
  phase : List Char
  A : ℚ
  X : ℚ
  BZ : ℚ
  Tide : ℚ
  Helix : ℚ
  Ligand : ℚ
deriving DecidableEq

/-- The dict returned by `_calculate_liquid_mix`. -/
structure LiquidMix where
  part_a : ℚ
  part_b : ℚ
  part_c : ℚ
  burst : ℚ
  kelp : ℚ
  amino : ℚ
  fulvic : ℚ
deriving DecidableEq

/-- Model of `_calculate_liquid_mix(phase, liters)`: validates liters, looks up the
plan entry, routes the per-liter doses by stage (veg: X fills part_b, no
part_c/burst; ripen: A and part_b forced to 0, X fills part_c, burst keeps
BZ; flower: A active, X fills part_c, burst keeps BZ), then multiplies by
liters and rounds each quantity with `_round2`. `ValueError`s are modelled
as `.error`. -/
def calculateLiquidMix (entries : List EngineEntry) (phase : List Char) (liters : ℚ) :
    Except String LiquidMix :=
  if liters ≤ 0 then .error "liters must be greater than 0"
  else
    match entries.find? (fun e => e.phase == phase) with
    | none => .error "Unknown phase"
    | some entry =>
        match resolveStage phase with
        | .veg => .ok
            { part_a := round2 (entry.A * liters), part_b := round2 (entry.X * liters),
              part_c := round2 (0 * liters), burst := round2 (0 * liters),
              kelp := round2 (entry.Tide * liters), amino := round2 (entry.Helix * liters),
              fulvic := round2 (entry.Ligand * liters) }
        | .ripen => .ok
            { part_a := round2 (0 * liters), part_b := round2 (0 * liters),
              part_c := round2 (entry.X * liters), burst := round2 (entry.BZ * liters),
              kelp := round2 (entry.Tide * liters), amino := round2 (entry.Helix * liters),
              fulvic := round2 (entry.Ligand * liters) }
        | .flower => .ok
            { part_a := round2 (entry.A * liters), part_b := round2 (0 * liters),
              part_c := round2 (entry.X * liters), burst := round2 (entry.BZ * liters),
              kelp := round2 (entry.Tide * liters), amino := round2 (entry.Helix * liters),
              fulvic := round2 (entry.Ligand * liters) }

/-- The built-in coco default plan (`BASE_PLAN_TEMPLATES["coco"]["plan"]`,
plan_routes.py), restricted to the fields `_calculate_liquid_mix` reads. -/
def cocoEntries : List EngineEntry :=
  [ ⟨"Early Veg".data, 8/10, 8/10, 0, 3/10, 2/100, 2/100⟩,
    ⟨"Mid Veg".data, 1, 1, 0, 3/10, 2/100, 2/100⟩,
    ⟨"Late Veg".data, 12/10, 12/10, 0, 3/10, 2/100, 2/100⟩,
    ⟨"W1".data, 14/10, 1, 0, 3/10, 2/100, 2/100⟩,
    ⟨"W2".data, 14/10, 11/10, 0, 3/10, 2/100, 2/100⟩,
    ⟨"W3".data, 13/10, 13/10, 0, 3/10, 2/100, 2/100⟩,
    ⟨"W4".data, 12/10, 15/10, 0, 0, 2/100, 2/100⟩,
    ⟨"W5".data, 12/10, 16/10, 1/10, 0, 2/100, 2/100⟩,
    ⟨"W6".data, 11/10, 15/10, 3/10, 0, 2/100, 2/100⟩,
    ⟨"W7".data, 9/10, 13/10, 5/10, 0, 2/100, 2/100⟩,
    ⟨"W8".data, 7/10, 11/10, 8/10, 0, 2/100, 2/100⟩,
    ⟨"W9".data, 5/10, 8/10, 1, 0, 2/100, 2/100⟩,
    ⟨"W10".data, 0, 5/10, 13/10, 0, 0, 0⟩ ]

theorem round2_zero : round2 0 = 0 := by
  norm_num [round2, roundHalfUp]

/-- Claim C4: for every phase classified as ripen (week number ≥ 10, the
configured threshold), the computed liquid mix forces component A to 0,
routes the entry's X dose into the part_c slot, and keeps the booster at
the entry's BZ dose. -/
theorem ripen_stage_routing (entries : List EngineEntry) (phase : List Char) (liters : ℚ)
    (e : EngineEntry) (w : Nat) (hl : 0 < liters)
    (hfind : entries.find? (fun x => x.phase == phase) = some e)
    (hweek : matchWeek phase = some w) (hw : 10 ≤ w) :
    calculateLiquidMix entries phase liters = .ok
      { part_a := 0, part_b := 0, part_c := round2 (e.X * liters),
        burst := round2 (e.BZ * liters), kelp := round2 (e.Tide * liters),
        amino := round2 (e.Helix * liters), fulvic := round2 (e.Ligand * liters) } := by
  have hnv : phase ∉ VEG_PHASES := by
    intro hmem
    simp only [VEG_PHASES, List.mem_cons, List.not_mem_nil, or_false] at hmem
    rcases hmem with rfl | rfl | rfl <;>
      · rw [show matchWeek _ = none from by decide] at hweek
        cases hweek
  have hstage : resolveStage phase = .ripen := by
    rw [resolveStage, if_neg hnv, hweek]
    exact if_pos hw
  rw [calculateLiquidMix, if_neg (not_le.mpr hl), hfind, hstage]
  rw [zero_mul, round2_zero]

/-- Witness for C4: the coco plan's W10 phase at 10 liters. -/
theorem ripen_stage_routing_witness :
    (0:ℚ) < 10 ∧ calculateLiquidMix cocoEntries "W10".data 10 = .ok
      { part_a := 0, part_b := 0, part_c := round2 ((5/10) * 10),
        burst := round2 ((13/10) * 10), kelp := round2 (0 * 10),
        amino := round2 (0 * 10), fulvic := round2 (0 * 10) } :=
  ⟨by norm_num,
    ripen_stage_routing cocoEntries "W10".data 10 ⟨"W10".data, 0, 5/10, 13/10, 0, 0, 0⟩ 10
      (by norm_num) rfl (by decide) (by norm_num)⟩

/-- Claim C7: for the built-in coco default plan, the liquid mix for phase
W1 at any positive volume is the per-liter doses multiplied by the volume
and rounded with decimal round-half-up at 2 decimals; at 10 liters part_a is
round2(1.4 * 10) = 14.  The last conjunct exhibits round-half-up on a tie
(2.675 rounds to 2.68, unlike binary float rounding). -/
theorem w1_mix_eval (liters : ℚ) (hl : 0 < liters) :
    calculateLiquidMix cocoEntries "W1".data liters = .ok
      { part_a := round2 (14/10 * liters), part_b := round2 (0 * liters),
        part_c := round2 (1 * liters), burst := round2 (0 * liters),
        kelp := round2 (3/10 * liters), amino := round2 (2/100 * liters),
        fulvic := round2 (2/100 * liters) } := by
  have hfind : cocoEntries.find? (fun x => x.phase == "W1".data)
      = some ⟨"W1".data, 14/10, 1, 0, 3/10, 2/100, 2/100⟩ := rfl
  have hstage : resolveStage "W1".data = .flower := rfl
  rw [calculateLiquidMix, if_neg (not_le.mpr hl), hfind, hstage]

theorem w1_liquid_mix_scaling (liters : ℚ) (hl : 0 < liters) :
    calculateLiquidMix cocoEntries "W1".data liters = .ok
      { part_a := round2 (14/10 * liters), part_b := round2 (0 * liters),
        part_c := round2 (1 * liters), burst := round2 (0 * liters),
        kelp := round2 (3/10 * liters), amino := round2 (2/100 * liters),
        fulvic := round2 (2/100 * liters) } ∧
    calculateLiquidMix cocoEntries "W1".data 10 = .ok
      { part_a := 14, part_b := 0, part_c := 10, burst := 0, kelp := 3,
        amino := 1/5, fulvic := 1/5 } ∧
    round2 ((14/10 : ℚ) * 10) = 14 ∧
    round2 ((2675 : ℚ) / 1000) = 268/100 := by
  refine ⟨w1_mix_eval liters hl, ?_, ?_, ?_⟩
  · rw [w1_mix_eval 10 (by norm_num)]
    simp only [Except.ok.injEq, LiquidMix.mk.injEq]
    norm_num [round2, roundHalfUp]
  · norm_num [round2, roundHalfUp]
  · norm_num [round2, roundHalfUp]

/-- Witness for C7 at 10 liters. -/
theorem w1_liquid_mix_scaling_witness :
    (0:ℚ) < 10 ∧ calculateLiquidMix cocoEntries "W1".data 10 = .ok
      { part_a := 14, part_b := 0, part_c := 10, burst := 0, kelp := 3,
        amino := 1/5, fulvic := 1/5 } :=
  ⟨by norm_num, (w1_liquid_mix_scaling 10 (by norm_num)).2.1⟩

/-! ## Dose calculator heuristics
`services/nutrient_service.py`: `get_stage_class`, and the observation delta
rules plus final clamping inside `calculate_dose` (the slice computing
`d_a/d_x/d_b` and `adj_a/adj_x/adj_bz`).  Fields of `DoserInput` not read by
this slice (`reservoir`, `substrate`, `startDate`) are omitted. -/

inductive Trend | neutral | higher | lower
deriving DecidableEq

inductive YesNo | yes | no
deriving DecidableEq

inductive PHDrift | normal | high | low
deriving DecidableEq

inductive StageClass | VEG | B1 | P23 | P47 | W8 | RIPEN
deriving DecidableEq

/-- Model of `get_stage_class(phase)`.  In the source, both the `week_number is None`
sub-branches (the veg/wachstum substring test and the default) return "VEG",
so they are collapsed here.  `str.lower` is modelled by `Char.toLower`
(identical on ASCII). -/
def getStageClass (phase : List Char) : StageClass :=
  let normalized := trimChars phase
  let low := normalized.map Char.toLower
  if low = "early veg".data ∨ low = "mid veg".data ∨ low = "late veg".data
      ∨ low = "frühe veg".data ∨ low = "mitte veg".data ∨ low = "späte veg".data then
    StageClass.VEG
  else
    match matchWeek normalized with
    | none => StageClass.VEG
    | some w =>
        if w = 1 then StageClass.B1
        else if w ≤ 3 then StageClass.P23
        else if w ≤ 7 then StageClass.P47
        else if w = 8 then StageClass.W8
        else StageClass.RIPEN

/-- The observation fields of `DoserInput` read by the delta rules. -/
structure DoserInputS where
  phase : List Char
  trend : Trend
  tipburn : YesNo
  pale : YesNo
  caMgDeficiency : YesNo
  claw : YesNo
  phDrift : PHDrift
deriving DecidableEq

/-- The `A/X/BZ` per-liter doses of the plan entry read by `calculate_dose`. -/
structure DoseEntry where
  A : ℚ
  X : ℚ
  BZ : ℚ
deriving DecidableEq

/-- Rule 1: `if inputs.claw == "yes": d_a -= 0.08; if stage == "VEG": d_x -= 0.05`. -/
def ruleClaw (claw : YesNo) (stage : StageClass) (s : ℚ × ℚ × ℚ) : ℚ × ℚ × ℚ :=
  if claw = YesNo.yes then
    (s.1 - 8/100, if stage = StageClass.VEG then s.2.1 - 5/100 else s.2.1, s.2.2)
  else s

/-- Rule 2: `if inputs.pale == "yes" and not is_higher_ec and stage != "RIPEN":
d_a += 0.10`.  Note: the code has no claw guard here. -/
def rulePale (pale : YesNo) (trend : Trend) (stage : StageClass) (s : ℚ × ℚ × ℚ) :
    ℚ × ℚ × ℚ :=
  if pale = YesNo.yes ∧ trend ≠ Trend.higher ∧ stage ≠ StageClass.RIPEN then
    (s.1 + 10/100, s.2.1, s.2.2)
  else s

/-- Rule 3: Ca/Mg deficiency: `d_x += 0.05` always; `d_a += 0.05` only when
EC is not rising and claw is "no". -/
def ruleCaMg (camg : YesNo) (trend : Trend) (claw : YesNo) (s : ℚ × ℚ × ℚ) :
    ℚ × ℚ × ℚ :=
  if camg = YesNo.yes then
    ((if trend ≠ Trend.higher ∧ claw = YesNo.no then s.1 + 5/100 else s.1),
      s.2.1 + 5/100, s.2.2)
  else s

/-- Rules 4/5: tipburn (factor 1.5 when EC rising, booster −0.03 when the
entry has booster), else the lower-EC boost branch. -/
def ruleTipburn (tipburn : YesNo) (trend : Trend) (claw : YesNo) (stage : StageClass)
    (bz : ℚ) (s : ℚ × ℚ × ℚ) : ℚ × ℚ × ℚ :=
  if tipburn = YesNo.yes then
    (s.1 - 4/100 * (if trend = Trend.higher then 3/2 else 1),
     s.2.1 - 4/100 * (if trend = Trend.higher then 3/2 else 1),
     if 0 < bz then s.2.2 - 3/100 * (if trend = Trend.higher then 3/2 else 1) else s.2.2)
  else if trend = Trend.lower ∧ stage ≠ StageClass.RIPEN ∧ claw = YesNo.no then
    (s.1,
     if stage = StageClass.P47 then s.2.1 + 2/100 else s.2.1,
     if 0 < bz ∧ (stage = StageClass.P23 ∨ stage = StageClass.P47) then s.2.2 + 2/100
     else s.2.2)
  else s

/-- Rules 6/7: pH drift high (A −0.05, X +0.03, booster +0.02 when the entry
has booster, then −0.02 when EC is also rising) / low (the mirror). -/
def rulePhDrift (ph : PHDrift) (trend : Trend) (bz : ℚ) (s : ℚ × ℚ × ℚ) :
    ℚ × ℚ × ℚ :=
  if ph = PHDrift.high then
    (s.1 - 5/100, s.2.1 + 3/100,
      (if trend = Trend.higher then (if 0 < bz then s.2.2 + 2/100 else s.2.2) - 2/100
       else (if 0 < bz then s.2.2 + 2/100 else s.2.2)))
  else if ph = PHDrift.low then
    (s.1 + 5/100, s.2.1 - 3/100, if 0 < bz then s.2.2 - 2/100 else s.2.2)
  else s

/-- The accumulated deltas `(d_a, d_x, d_b)` of `calculate_dose`. -/
def computeDeltas (inp : DoserInputS) (e : DoseEntry) : ℚ × ℚ × ℚ :=
  let stage := getStageClass inp.phase
  rulePhDrift inp.phDrift inp.trend e.BZ
    (ruleTipburn inp.tipburn inp.trend inp.claw stage e.BZ
      (ruleCaMg inp.caMgDeficiency inp.trend inp.claw
        (rulePale inp.pale inp.trend stage
          (ruleClaw inp.claw stage (0, 0, 0)))))

/-- Clamped adjusted values: `adj_a = max(0, r2(A + d_a))`, `adj_x = max(0, r2(X + d_x))`,
`adj_bz = max(0, r2(BZ + d_b)) if BZ > 0 else 0`. -/
def adjustedValues (inp : DoserInputS) (e : DoseEntry) : ℚ × ℚ × ℚ :=
  let d := computeDeltas inp e
  (max 0 (round2 (e.A + d.1)), max 0 (round2 (e.X + d.2.1)),
    if 0 < e.BZ then max 0 (round2 (e.BZ + d.2.2)) else 0)

/-- Claim C5: for a vegetative plan entry with A=1.0, X=1.0 and an
observation of leaf claw only, the pre-liter-scaling adjusted values are
A = 0.92 and X = 0.95; and in general every adjusted value is clamped ≥ 0. -/
theorem claw_veg_example_and_clamp :
    adjustedValues
        ⟨"Mid Veg".data, Trend.neutral, YesNo.no, YesNo.no, YesNo.no, YesNo.yes,
          PHDrift.normal⟩ ⟨1, 1, 0⟩
      = (92/100, 95/100, 0) ∧
    ∀ (inp : DoserInputS) (e : DoseEntry),
      0 ≤ (adjustedValues inp e).1 ∧ 0 ≤ (adjustedValues inp e).2.1
        ∧ 0 ≤ (adjustedValues inp e).2.2 := by
  constructor
  · have hstage : getStageClass "Mid Veg".data = StageClass.VEG := rfl
    simp [adjustedValues, computeDeltas, hstage, ruleClaw, rulePale, ruleCaMg,
      ruleTipburn, rulePhDrift]
    norm_num [round2, roundHalfUp]
  · intro inp e
    refine ⟨le_max_left 0 _, le_max_left 0 _, ?_⟩
    simp only [adjustedValues]
    split
    · exact le_max_left 0 _
    · exact le_refl 0

theorem ruleCaMg_shiftA (camg : YesNo) (trend : Trend) (claw : YesNo)
    (s : ℚ × ℚ × ℚ) (d : ℚ) :
    ruleCaMg camg trend claw (s.1 + d, s.2.1, s.2.2)
      = ((ruleCaMg camg trend claw s).1 + d, (ruleCaMg camg trend claw s).2.1,
         (ruleCaMg camg trend claw s).2.2) := by
  unfold ruleCaMg
  split_ifs <;> simp <;> ring

theorem ruleTipburn_shiftA (tipburn : YesNo) (trend : Trend) (claw : YesNo)
    (stage : StageClass) (bz : ℚ) (s : ℚ × ℚ × ℚ) (d : ℚ) :
    ruleTipburn tipburn trend claw stage bz (s.1 + d, s.2.1, s.2.2)
      = ((ruleTipburn tipburn trend claw stage bz s).1 + d,
         (ruleTipburn tipburn trend claw stage bz s).2.1,
         (ruleTipburn tipburn trend claw stage bz s).2.2) := by
  unfold ruleTipburn
  split_ifs <;> simp <;> ring

theorem rulePhDrift_shiftA (ph : PHDrift) (trend : Trend) (bz : ℚ)
    (s : ℚ × ℚ × ℚ) (d : ℚ) :
    rulePhDrift ph trend bz (s.1 + d, s.2.1, s.2.2)
      = ((rulePhDrift ph trend bz s).1 + d, (rulePhDrift ph trend bz s).2.1,
         (rulePhDrift ph trend bz s).2.2) := by
  unfold rulePhDrift
  split_ifs <;> simp <;> ring

/-- Counterexample to C6: with paleness AND claw observed (veg stage,
neutral EC trend), the code still applies the +0.10 paleness delta on top of
the −0.08 claw delta, giving adjusted A = 1.02 on a base entry A=1.0 —
whereas the claim ("skipped if claw already fired") predicts 1.0 − 0.08 = 0.92. -/
theorem paleness_despite_claw_counterexample :
    adjustedValues
        ⟨"Mid Veg".data, Trend.neutral, YesNo.no, YesNo.yes, YesNo.no, YesNo.yes,
          PHDrift.normal⟩ ⟨1, 1, 0⟩
      = (102/100, 95/100, 0) ∧ (102/100 : ℚ) ≠ 1 - 8/100 := by
  constructor
  · have hstage : getStageClass "Mid Veg".data = StageClass.VEG := rfl
    simp [adjustedValues, computeDeltas, hstage, ruleClaw, rulePale, ruleCaMg,
      ruleTipburn, rulePhDrift]
    norm_num [round2, roundHalfUp]
  · norm_num

/-- Claim C6 as amended: whenever paleness is observed with EC not rising
and stage ≠ RIPEN, component A receives exactly a +0.10 delta relative to
the same observation without paleness — regardless of whether the claw rule
fired (the code has no claw guard on this rule); outside those conditions
paleness changes nothing. -/
theorem paleness_delta_amended (phase : List Char) (trend : Trend)
    (tipburn camg claw : YesNo) (ph : PHDrift) (e : DoseEntry) :
    ((trend ≠ Trend.higher ∧ getStageClass phase ≠ StageClass.RIPEN) →
      computeDeltas ⟨phase, trend, tipburn, YesNo.yes, camg, claw, ph⟩ e
        = ((computeDeltas ⟨phase, trend, tipburn, YesNo.no, camg, claw, ph⟩ e).1 + 10/100,
           (computeDeltas ⟨phase, trend, tipburn, YesNo.no, camg, claw, ph⟩ e).2.1,
           (computeDeltas ⟨phase, trend, tipburn, YesNo.no, camg, claw, ph⟩ e).2.2)) ∧
    (¬ (trend ≠ Trend.higher ∧ getStageClass phase ≠ StageClass.RIPEN) →
      computeDeltas ⟨phase, trend, tipburn, YesNo.yes, camg, claw, ph⟩ e
        = computeDeltas ⟨phase, trend, tipburn, YesNo.no, camg, claw, ph⟩ e) := by
  have hN : rulePale YesNo.no trend (getStageClass phase)
      (ruleClaw claw (getStageClass phase) (0, 0, 0))
      = ruleClaw claw (getStageClass phase) (0, 0, 0) := by
    unfold rulePale
    rw [if_neg]
    rintro ⟨hc, -, -⟩
    cases hc
  constructor
  · intro h
    have hY : rulePale YesNo.yes trend (getStageClass phase)
        (ruleClaw claw (getStageClass phase) (0, 0, 0))
        = ((ruleClaw claw (getStageClass phase) (0, 0, 0)).1 + 10/100,
           (ruleClaw claw (getStageClass phase) (0, 0, 0)).2.1,
           (ruleClaw claw (getStageClass phase) (0, 0, 0)).2.2) := by
      unfold rulePale
      rw [if_pos ⟨rfl, h.1, h.2⟩]
    simp only [computeDeltas]
    rw [hY, hN, ruleCaMg_shiftA, ruleTipburn_shiftA, rulePhDrift_shiftA]
  · intro h
    have hY : rulePale YesNo.yes trend (getStageClass phase)
        (ruleClaw claw (getStageClass phase) (0, 0, 0))
        = ruleClaw claw (getStageClass phase) (0, 0, 0) := by
      unfold rulePale
      rw [if_neg]
      rintro ⟨-, h1, h2⟩
      exact h ⟨h1, h2⟩
    simp only [computeDeltas]
    rw [hY, hN]

/-- Witness for C6 (amended) at a concrete input: veg phase, neutral trend,
claw also observed; paleness adds exactly +0.10 to the A delta. -/
theorem paleness_delta_amended_witness :
    (Trend.neutral ≠ Trend.higher ∧ getStageClass "Mid Veg".data ≠ StageClass.RIPEN) ∧
    computeDeltas
        ⟨"Mid Veg".data, Trend.neutral, YesNo.no, YesNo.yes, YesNo.no, YesNo.yes,
          PHDrift.normal⟩ ⟨1, 1, 0⟩
      = ((computeDeltas ⟨"Mid Veg".data, Trend.neutral, YesNo.no, YesNo.no, YesNo.no,
            YesNo.yes, PHDrift.normal⟩ ⟨1, 1, 0⟩).1 + 10/100,
         (computeDeltas ⟨"Mid Veg".data, Trend.neutral, YesNo.no, YesNo.no, YesNo.no,
            YesNo.yes, PHDrift.normal⟩ ⟨1, 1, 0⟩).2.1,
         (computeDeltas ⟨"Mid Veg".data, Trend.neutral, YesNo.no, YesNo.no, YesNo.no,
            YesNo.yes, PHDrift.normal⟩ ⟨1, 1, 0⟩).2.2) :=
  ⟨⟨fun hc => Trend.noConfusion hc, fun hc => StageClass.noConfusion hc⟩,
    (paleness_delta_amended "Mid Veg".data Trend.neutral YesNo.no YesNo.no YesNo.yes
        PHDrift.normal ⟨1, 1, 0⟩).1
      ⟨fun hc => Trend.noConfusion hc, fun hc => StageClass.noConfusion hc⟩⟩

/-! ## Inventory

Two distinct stores exist in the repository:

* the SQLite ledger (`backend/app/inventory_db.py`) with the fixed component
  rows `COMPONENT_KEYS = ("A", "B", "C", "BURST")` — `apply_consumption`
  checks every sanitized request against availability (within epsilon 1e-6)
  inside one `BEGIN IMMEDIATE` transaction before subtracting anything, and
  raises `InsufficientInventoryError` on the first deficit;
* the engine's JSON state (`backend/nutrient_engine.py._consume_mix`), which
  never raises and silently clamps each stock at 0.

A db state is a total map `CompKey → ℚ` (the rows exist for all four keys
once `initialize()` has run, so the missing-row `InventoryError` branch of
`apply_consumption` and the INSERT branch of `set_stock` cannot fire and are
not modelled; `set_stock` on an unknown component name raises, so its
component argument is `CompKey`).  Consumption dicts are total maps
`String → ℚ` with 0 for missing keys (`consumption.get(key, 0.0) or 0.0`).
`apply_consumption`'s per-key loop over the fixed 4-tuple is unrolled. -/

inductive CompKey | A | B | C | BURST
deriving DecidableEq

def compName : CompKey → String
  | .A => "A"
  | .B => "B"
  | .C => "C"
  | .BURST => "BURST"

/-- The epsilon in `used > available + 1e-6`. -/
def EPS : ℚ := 1/1000000

/-- Model of `sanitized = {key: max(0.0, float(consumption.get(key, 0.0) or 0.0)) ...}`. -/
def sanitizeCons (cons : String → ℚ) (k : CompKey) : ℚ := max 0 (cons (compName k))

/-- Model of `InsufficientInventoryError`, carrying the component name and the
requested/available grams interpolated into its message. -/
inductive InvError where
  | insufficient (component : String) (requested available : ℚ)
deriving DecidableEq

/-- Model of `apply_consumption(consumption)`: validate every component in the order
A, B, C, BURST, erroring at the first deficit without writing anything;
otherwise subtract all requested grams (floored at 0) and commit. An error
models the rollback: no new state is produced. -/
def applyConsumption (grams : CompKey → ℚ) (cons : String → ℚ) :
    Except InvError (CompKey → ℚ) :=
  if grams .A + EPS < sanitizeCons cons .A then
    .error (.insufficient (compName .A) (sanitizeCons cons .A) (grams .A))
  else if grams .B + EPS < sanitizeCons cons .B then
    .error (.insufficient (compName .B) (sanitizeCons cons .B) (grams .B))
  else if grams .C + EPS < sanitizeCons cons .C then
    .error (.insufficient (compName .C) (sanitizeCons cons .C) (grams .C))
  else if grams .BURST + EPS < sanitizeCons cons .BURST then
    .error (.insufficient (compName .BURST) (sanitizeCons cons .BURST) (grams .BURST))
  else
    .ok fun k => max 0 (grams k - sanitizeCons cons k)

/-- Model of `set_stock(component, grams, update_capacity)` on an existing row:
`grams = max(0.0, float(grams))`, then UPDATE grams (and initial_grams when
`update_capacity`).  Rows are `(grams, initial_grams)`. -/
def setStock (db : CompKey → ℚ × ℚ) (component : CompKey) (grams : ℚ)
    (updateCapacity : Bool) : CompKey → ℚ × ℚ :=
  fun k =>
    if k = component then
      (max 0 grams, if updateCapacity then max 0 grams else (db k).2)
    else db k

/-- Model of `NutrientCalculator._consume_mix`: for every inventory-config key,
subtract the (negative-floored) requested grams and clamp the result at 0;
other keys of the state are untouched.  It never raises. -/
def consumeMix (cfgKeys : List String) (state mix : String → ℚ) : String → ℚ :=
  fun key =>
    if key ∈ cfgKeys then max 0 (state key - max 0 (mix key)) else state key

/-- The clamping `_normalize_state` applies to one component: take the
stored value (defaulting to `full_size`), floor at 0, and cap at `full_size`
when `full_size > 0`. -/
def clampCurrent (full : ℚ) (v : Option ℚ) : ℚ :=
  let current := v.getD full
  let current := if current < 0 then 0 else current
  if 0 < full ∧ full < current then full else current

/-- Model of `NutrientCalculator._normalize_state`: the inventory config is the list
of `(key, full_size)` pairs; raw JSON state maps keys to optional values. -/
def normalizeState (config : List (String × ℚ)) (data : String → Option ℚ) :
    List (String × ℚ) :=
  config.map fun p => (p.1, clampCurrent p.2 (data p.1))

/-- Sequential execution of `apply_consumption` transactions: each runs
atomically (`BEGIN IMMEDIATE` holds an exclusive write lock for the whole
read-validate-write-commit cycle), a failed one leaves the state unchanged.
Returns the final state and the per-call success flags. -/
def runStep (acc : (CompKey → ℚ) × List Bool) (req : String → ℚ) :
    (CompKey → ℚ) × List Bool :=
  match applyConsumption acc.1 req with
  | .ok st => (st, acc.2 ++ [true])
  | .error _ => (acc.1, acc.2 ++ [false])

def runConsumptions (init : CompKey → ℚ) (reqs : List (String → ℚ)) :
    (CompKey → ℚ) × List Bool :=
  reqs.foldl runStep (init, [])

/-- Counterexample to C1 as stated: the repository's consumption entry point
for the engine inventory, `_consume_mix` (used by `mix_tank` and the
`/inventory/consume` route), does NOT abort when more grams are requested
than available.  Consuming `{"part_a": 999999}` against a 500 g stock
returns normally (the function is total — no `InsufficientInventoryError`)
and changes the stock to 0, contradicting both the abort and the
no-stock-changes parts of the claim. -/
theorem consume_mix_silent_clamp_counterexample :
    consumeMix ["part_a"] (fun _ => 500) (fun s => if s = "part_a" then 999999 else 0)
        "part_a" = 0
      ∧ (0:ℚ) ≠ 500 := by
  constructor
  · norm_num [consumeMix]
  · norm_num

/-- Claim C1 as amended: in the SQLite ledger (`apply_consumption`) — the
only consumption path that raises `InsufficientInventoryError` — requests
are read for the fixed components A, B, C, BURST only (a key such as
"part_a" is ignored, i.e. treated as requesting 0).  If every sanitized
request is within availability + 1e-6, all requested grams are subtracted in
one commit; if any recognized component is short, the whole operation aborts
with `InsufficientInventoryError` naming that component's requested and
available grams, and no stock changes (the transaction rolls back). -/
theorem apply_consumption_all_or_nothing (grams : CompKey → ℚ) (cons : String → ℚ) :
    ((∀ k, sanitizeCons cons k ≤ grams k + EPS) →
      applyConsumption grams cons = .ok fun k => max 0 (grams k - sanitizeCons cons k)) ∧
    (∀ k, grams k + EPS < sanitizeCons cons k →
      ∃ j, applyConsumption grams cons
          = .error (.insufficient (compName j) (sanitizeCons cons j) (grams j))
        ∧ grams j + EPS < sanitizeCons cons j) := by
  constructor
  · intro h
    rw [applyConsumption, if_neg (not_lt.mpr (h .A)), if_neg (not_lt.mpr (h .B)),
      if_neg (not_lt.mpr (h .C)), if_neg (not_lt.mpr (h .BURST))]
  · intro k hk
    by_cases cA : grams .A + EPS < sanitizeCons cons .A
    · exact ⟨.A, by rw [applyConsumption, if_pos cA], cA⟩
    by_cases cB : grams .B + EPS < sanitizeCons cons .B
    · exact ⟨.B, by rw [applyConsumption, if_neg cA, if_pos cB], cB⟩
    by_cases cC : grams .C + EPS < sanitizeCons cons .C
    · exact ⟨.C, by rw [applyConsumption, if_neg cA, if_neg cB, if_pos cC], cC⟩
    by_cases cD : grams .BURST + EPS < sanitizeCons cons .BURST
    · exact ⟨.BURST, by rw [applyConsumption, if_neg cA, if_neg cB, if_neg cC, if_pos cD], cD⟩
    · exfalso
      cases k
      · exact cA hk
      · exact cB hk
      · exact cC hk
      · exact cD hk

/-- Witness for C1 (amended): requesting 999999 g of component "A" against a
500 g stock yields `InsufficientInventoryError` with requested 999999 and
available 500. -/
theorem apply_consumption_all_or_nothing_witness :
    ∃ j, applyConsumption (fun _ => 500) (fun s => if s = "A" then 999999 else 0)
        = .error (.insufficient (compName j)
            (sanitizeCons (fun s => if s = "A" then 999999 else 0) j)
            ((fun _ => (500:ℚ)) j))
      ∧ (fun _ => (500:ℚ)) j + EPS < sanitizeCons (fun s => if s = "A" then 999999 else 0) j :=
  (apply_consumption_all_or_nothing (fun _ => 500)
      (fun s => if s = "A" then 999999 else 0)).2 CompKey.A
    (by norm_num [sanitizeCons, compName, EPS])

/-- Counterexample to C3 as stated: `set_stock` clamps only at 0, so an
administrative set of 1000 g on a component whose capacity
(`initial_grams`) is 500 stores 1000 > 500, violating
`current_grams ∈ [0, full_capacity]`. -/
theorem set_stock_exceeds_capacity_counterexample :
    (setStock (fun _ => (500, 500)) CompKey.A 1000 false CompKey.A).1 = 1000 ∧
    (setStock (fun _ => (500, 500)) CompKey.A 1000 false CompKey.A).2 = 500 ∧
    ¬ ((1000:ℚ) ≤ 500) := by
  refine ⟨?_, ?_, by norm_num⟩ <;> norm_num [setStock]

/-- Claim C3 as amended: loading state (`_normalize_state`) clamps every
component into `[0, full_size]` (the upper bound whenever `full_size > 0`);
consuming (`_consume_mix`) keeps a stock that was within `[0, full]` within
`[0, full]`; but the administrative `set_stock` only clamps below at 0 — it
can store a value above the component's capacity. -/
theorem inventory_bounds_amended :
    (∀ (full : ℚ) (v : Option ℚ),
      0 ≤ clampCurrent full v ∧ (0 < full → clampCurrent full v ≤ full)) ∧
    (∀ (config : List (String × ℚ)) (data : String → Option ℚ),
      ∀ p ∈ normalizeState config data, 0 ≤ p.2) ∧
    (∀ (cfgKeys : List String) (state mix : String → ℚ) (key : String) (full : ℚ),
      0 ≤ state key → state key ≤ full →
        0 ≤ consumeMix cfgKeys state mix key ∧ consumeMix cfgKeys state mix key ≤ full) ∧
    (∀ (db : CompKey → ℚ × ℚ) (c : CompKey) (g : ℚ) (u : Bool) (k : CompKey),
      0 ≤ (db k).1 → 0 ≤ (setStock db c g u k).1) := by
  have hclamp : ∀ (full : ℚ) (v : Option ℚ),
      0 ≤ clampCurrent full v ∧ (0 < full → clampCurrent full v ≤ full) := by
    intro full v
    set y : ℚ := if v.getD full < 0 then 0 else v.getD full with hydef
    have hy0 : 0 ≤ y := by
      rw [hydef]
      split
      · exact le_refl 0
      · next h => exact not_lt.mp h
    have hval : clampCurrent full v = if 0 < full ∧ full < y then full else y := rfl
    rw [hval]
    constructor
    · split
      · next h => exact h.1.le
      · exact hy0
    · intro hf
      split
      · exact le_refl full
      · next h =>
        rcases not_and_or.mp h with h1 | h2
        · exact absurd hf h1
        · exact not_lt.mp h2
  refine ⟨hclamp, ?_, ?_, ?_⟩
  · intro config data p hp
    rw [normalizeState] at hp
    obtain ⟨q, _, rfl⟩ := List.mem_map.mp hp
    exact (hclamp q.2 (data q.1)).1
  · intro cfgKeys state mix key full h0 hfull
    rw [consumeMix]
    split
    · exact ⟨le_max_left 0 _,
        le_trans (max_le h0 (sub_le_self _ (le_max_left 0 _))) hfull⟩
    · exact ⟨h0, hfull⟩
  · intro db c g u k h0
    rw [setStock]
    split
    · exact le_max_left 0 _
    · exact h0

/-- Witness for C3 (amended): a stored value 700 against capacity 500 loads
as 500; consuming from a 500 g stock (capacity 500) stays within [0, 500];
setting −3 g stores 0 ≥ 0. -/
theorem inventory_bounds_amended_witness :
    (0 ≤ clampCurrent 500 (some 700) ∧ clampCurrent 500 (some 700) ≤ 500) ∧
    (0 ≤ consumeMix ["part_a"] (fun _ => 500) (fun _ => 600) "part_a"
      ∧ consumeMix ["part_a"] (fun _ => 500) (fun _ => 600) "part_a" ≤ 500) ∧
    0 ≤ (setStock (fun _ => (500, 500)) CompKey.A (-3) false CompKey.A).1 :=
  ⟨⟨(inventory_bounds_amended.1 500 (some 700)).1,
      (inventory_bounds_amended.1 500 (some 700)).2 (by norm_num)⟩,
    inventory_bounds_amended.2.2.1 ["part_a"] (fun _ => 500) (fun _ => 600) "part_a" 500
      (by norm_num) (by norm_num),
    inventory_bounds_amended.2.2.2 (fun _ => (500, 500)) CompKey.A (-3) false CompKey.A
      (by norm_num)⟩

/-- Claim C9: with exactly 10 g of component A and two `apply_consumption`
transactions of 6 g each (the two possible serialization orders coincide,
the requests being identical), the first succeeds leaving 4 g, the second
fails with `InsufficientInventoryError` (requested 6, available 4), the
final stock is exactly 4 g and non-negative.  Each transaction is modelled
as atomic, which is what `BEGIN IMMEDIATE`'s exclusive write lock
guarantees for the read-validate-write-commit cycle. -/
theorem concurrent_confirms_serialized :
    ((runConsumptions (fun k => if k = CompKey.A then 10 else 100)
        [fun s => if s = "A" then 6 else 0, fun s => if s = "A" then 6 else 0]).2
      = [true, false]) ∧
    ((runConsumptions (fun k => if k = CompKey.A then 10 else 100)
        [fun s => if s = "A" then 6 else 0, fun s => if s = "A" then 6 else 0]).1 CompKey.A
      = 4) ∧
    applyConsumption
        ((runConsumptions (fun k => if k = CompKey.A then 10 else 100)
            [fun s => if s = "A" then 6 else 0]).1)
        (fun s => if s = "A" then 6 else 0)
      = .error (.insufficient "A" 6 4) ∧
    0 ≤ (runConsumptions (fun k => if k = CompKey.A then 10 else 100)
        [fun s => if s = "A" then 6 else 0, fun s => if s = "A" then 6 else 0]).1 CompKey.A := by
  have h1 : applyConsumption (fun k => if k = CompKey.A then 10 else 100)
      (fun s => if s = "A" then 6 else 0)
      = .ok fun k => max 0 ((if k = CompKey.A then (10:ℚ) else 100)
          - sanitizeCons (fun s => if s = "A" then 6 else 0) k) := by
    rw [applyConsumption]
    rw [if_neg (by simp [sanitizeCons, compName, EPS] <;> norm_num),
      if_neg (by simp [sanitizeCons, compName, EPS] <;> norm_num),
      if_neg (by simp [sanitizeCons, compName, EPS] <;> norm_num),
      if_neg (by simp [sanitizeCons, compName, EPS] <;> norm_num)]
  have hA : (fun k => max 0 ((if k = CompKey.A then (10:ℚ) else 100)
      - sanitizeCons (fun s => if s = "A" then 6 else 0) k)) CompKey.A = 4 := by
    simp [sanitizeCons, compName] <;> norm_num
  have h2 : applyConsumption
      (fun k => max 0 ((if k = CompKey.A then (10:ℚ) else 100)
        - sanitizeCons (fun s => if s = "A" then 6 else 0) k))
      (fun s => if s = "A" then 6 else 0)
      = .error (.insufficient "A" 6 4) := by
    rw [applyConsumption, if_pos (by simp [sanitizeCons, compName, EPS] <;> norm_num)]
    simp [sanitizeCons, compName] <;> norm_num
  have hstep1 : runStep ((fun k => if k = CompKey.A then 10 else 100), ([] : List Bool))
      (fun s => if s = "A" then 6 else 0)
      = ((fun k => max 0 ((if k = CompKey.A then (10:ℚ) else 100)
          - sanitizeCons (fun s => if s = "A" then 6 else 0) k)), [true]) := by
    simp only [runStep, h1, List.nil_append]
  have hstep2 : runStep
      ((fun k => max 0 ((if k = CompKey.A then (10:ℚ) else 100)
        - sanitizeCons (fun s => if s = "A" then 6 else 0) k)), [true])
      (fun s => if s = "A" then 6 else 0)
      = ((fun k => max 0 ((if k = CompKey.A then (10:ℚ) else 100)
          - sanitizeCons (fun s => if s = "A" then 6 else 0) k)), [true, false]) := by
    simp only [runStep, h2, List.singleton_append]
  have hrun : runConsumptions (fun k => if k = CompKey.A then 10 else 100)
      [fun s => if s = "A" then 6 else 0, fun s => if s = "A" then 6 else 0]
      = ((fun k => max 0 ((if k = CompKey.A then (10:ℚ) else 100)
          - sanitizeCons (fun s => if s = "A" then 6 else 0) k)), [true, false]) := by
    rw [runConsumptions, List.foldl_cons, hstep1, List.foldl_cons, hstep2, List.foldl_nil]
  have hrun1 : runConsumptions (fun k => if k = CompKey.A then 10 else 100)
      [fun s => if s = "A" then 6 else 0]
      = ((fun k => max 0 ((if k = CompKey.A then (10:ℚ) else 100)
          - sanitizeCons (fun s => if s = "A" then 6 else 0) k)), [true]) := by
    rw [runConsumptions, List.foldl_cons, hstep1, List.foldl_nil]
  refine ⟨by rw [hrun], by rw [hrun]; exact hA, by rw [hrun1]; exact h2, ?_⟩
  rw [hrun]
  exact le_max_left 0 _

/-- Claim C10: consumption is monotone non-increasing per component, for
both consumption paths — negative requested amounts are floored to 0 before
subtraction, so consuming can never add stock.  (Stored inventory states are
non-negative: `_load_state` normalizes them and every SQLite write clamps at
0, hence the non-negativity hypothesis.) -/
theorem consumption_monotone_nonincreasing :
    (∀ (cfgKeys : List String) (state mix : String → ℚ) (key : String),
      0 ≤ state key → consumeMix cfgKeys state mix key ≤ state key) ∧
    (∀ (grams : CompKey → ℚ) (cons : String → ℚ) (st : CompKey → ℚ) (k : CompKey),
      0 ≤ grams k → applyConsumption grams cons = .ok st → st k ≤ grams k) := by
  constructor
  · intro cfgKeys state mix key h
    rw [consumeMix]
    split
    · exact max_le h (sub_le_self _ (le_max_left 0 _))
    · exact le_refl _
  · intro grams cons st k h hok
    rw [applyConsumption] at hok
    split at hok
    · exact absurd hok (by simp)
    split at hok
    · exact absurd hok (by simp)
    split at hok
    · exact absurd hok (by simp)
    split at hok
    · exact absurd hok (by simp)
    · have hst : st = fun k => max 0 (grams k - sanitizeCons cons k) :=
        (Except.ok.injEq _ _ ▸ hok.symm)
      rw [hst]
      exact max_le h (sub_le_self _ (le_max_left 0 _))

/-- Witness for C10: consuming a negative request (−3) from a 500 g stock
does not increase it, and the SQLite path with a zero request keeps A at
most 500. -/
theorem consumption_monotone_nonincreasing_witness :
    consumeMix ["part_a"] (fun _ => 500) (fun _ => -3) "part_a" ≤ 500 ∧
    (fun k => max 0 ((500:ℚ) - sanitizeCons (fun _ => 0) k)) CompKey.A ≤ 500 := by
  have hok : applyConsumption (fun _ => (500:ℚ)) (fun _ => 0)
      = .ok fun k => max 0 ((500:ℚ) - sanitizeCons (fun _ => 0) k) := by
    rw [applyConsumption]
    rw [if_neg (by norm_num [sanitizeCons, EPS]), if_neg (by norm_num [sanitizeCons, EPS]),
      if_neg (by norm_num [sanitizeCons, EPS]), if_neg (by norm_num [sanitizeCons, EPS])]
  exact ⟨consumption_monotone_nonincreasing.1 ["part_a"] (fun _ => 500) (fun _ => -3)
      "part_a" (by norm_num),
    consumption_monotone_nonincreasing.2 (fun _ => 500) (fun _ => 0)
      (fun k => max 0 ((500:ℚ) - sanitizeCons (fun _ => 0) k)) CompKey.A (by norm_num) hok⟩

end Growmind
